import Mathlib

/-!
Shallow embedding of the cursor-trail WebGL grid effect implemented in
`src/src/hooks/useWebGLGrid.ts`.

JS-side state and operations (trail recording, expiry, uniform-buffer
rebuild, demand-driven frame scheduling) are modelled over `ℚ`
(JS numbers, exact arithmetic); the GLSL fragment shader is modelled
over `ℝ` because it computes square roots (`length`).
-/

namespace WebGLGrid

/-- Constant `TRAIL_MAX = 50` (`useWebGLGrid.ts`, line 123). -/
def TRAIL_MAX : ℕ := 50

/-- Constant `TRAIL_DURATION = 500` ms (line 124). -/
def TRAIL_DURATION : ℚ := 500

/-- Constant `TRAIL_MIN_DIST = 8` px (line 125). -/
def TRAIL_MIN_DIST : ℚ := 8

/-- Source `interface TrailPoint` with fields x, y, t (lines 127–131). -/
structure TrailPoint where
  x : ℚ
  y : ℚ
  t : ℚ
deriving DecidableEq, Repr

/-- The mutable state captured by the `useEffect` closure (lines 193–197):
the trail array, the flat `Float32Array` uniform buffer `trailData`,
and the scheduled-frame handle `rafId`.  The frame scheduler
(`requestAnimationFrame`) is modelled by a fresh-handle counter `nextId`
together with the list `pending` of handles scheduled but not yet fired. -/
structure GridState where
  trail : List TrailPoint
  trailData : List ℚ
  rafId : Option ℕ
  nextId : ℕ
  pending : List ℕ
deriving DecidableEq, Repr

/-- State right after initialization: empty trail,
`trailData = new Float32Array(TRAIL_MAX * 3)` (all zeros), `rafId = null`,
nothing scheduled. -/
def initState : GridState :=
  { trail := []
    trailData := List.replicate (TRAIL_MAX * 3) 0
    rafId := none
    nextId := 0
    pending := [] }

/-- Model of `rafId = requestAnimationFrame(tick)`: allocates a fresh handle, makes it
pending, and stores it in `rafId`. -/
def raf (st : GridState) : GridState :=
  { st with
    rafId := some st.nextId
    nextId := st.nextId + 1
    pending := st.pending ++ [st.nextId] }

/-- Model of `startLoop` (lines 234–236): `if (rafId === null) rafId = requestAnimationFrame(tick)`. -/
def startLoop (st : GridState) : GridState :=
  if st.rafId = none then raf st else st

/-- Per-point time influence computed in `render` (lines 204–205):
`age = now - t; influence = Math.max(0, 1 - age / TRAIL_DURATION)`. -/
def influence (now t : ℚ) : ℚ :=
  max 0 (1 - (now - t) / TRAIL_DURATION)

/-- One iteration of the `render` loop body (lines 206–208): writes
`(x, y, influence)` into slots `i*3`, `i*3+1`, `i*3+2` of the buffer. -/
def writePoint (now : ℚ) (buf : List ℚ) (i : ℕ) (p : TrailPoint) : List ℚ :=
  ((buf.set (i * 3) p.x).set (i * 3 + 1) p.y).set (i * 3 + 2) (influence now p.t)

/-- The `for (let i = 0; i < trail.length; i++)` loop of `render`
(lines 203–209), started at slot index `i`. -/
def writeTrail (now : ℚ) : List TrailPoint → ℕ → List ℚ → List ℚ
  | [], _, buf => buf
  | p :: rest, i, buf => writeTrail now rest (i + 1) (writePoint now buf i p)

/-- Model of `render` (lines 200–215), restricted to its effect on `trailData`:
`trailData.fill(0)` then the per-point write loop.  (The GPU calls
`viewport`/`clear`/`uniform3fv`/`drawArrays` have no modelled state.) -/
def render (now : ℚ) (trail : List TrailPoint) (buf : List ℚ) : List ℚ :=
  writeTrail now trail 0 (buf.map fun _ => 0)

/-- The `while` loop of `tick` (lines 220–223) viewed from the oldest end:
`while (trail.length > 0 && trail[trail.length - 1].t < cutoff) trail.pop()`.
This operates on the reversed trail (oldest first). -/
def dropExpired (cutoff : ℚ) : List TrailPoint → List TrailPoint
  | [] => []
  | p :: rest => if p.t < cutoff then dropExpired cutoff rest else p :: rest

/-- The net effect of `tick`'s expiry loop on the (newest-first) trail. -/
def popExpired (cutoff : ℚ) (trail : List TrailPoint) : List TrailPoint :=
  (dropExpired cutoff trail.reverse).reverse

/-- Model of `tick` (lines 218–232): expire old points, render, then schedule the
next frame iff the trail is non-empty (`rafId = null` otherwise). -/
def tick (now : ℚ) (st : GridState) : GridState :=
  let trail := popExpired (now - TRAIL_DURATION) st.trail
  let st' := { st with trail := trail, trailData := render now trail st.trailData }
  if 0 < trail.length then raf st' else { st' with rafId := none }

/-- The body of `onMouseMove` after coordinate mapping (lines 250–260):
reject the point if it is within `TRAIL_MIN_DIST` of the most recent one
(squared-distance compare, early return), otherwise `unshift`, truncate to
`TRAIL_MAX`, and `startLoop()`. -/
def record (st : GridState) (x y now : ℚ) : GridState :=
  let push : GridState :=
    let t0 : List TrailPoint := ⟨x, y, now⟩ :: st.trail
    let t1 : List TrailPoint := if TRAIL_MAX < t0.length then t0.take TRAIL_MAX else t0
    startLoop { st with trail := t1 }
  match st.trail with
  | last :: _ =>
      if (x - last.x) * (x - last.x) + (y - last.y) * (y - last.y)
          < TRAIL_MIN_DIST * TRAIL_MIN_DIST then st
      else push
  | [] => push

/-- Model of `onMouseLeave` (lines 263–266): just `startLoop()`. -/
def leave (st : GridState) : GridState := startLoop st

/-- The browser firing a scheduled animation-frame callback at time `now`:
a no-op when nothing is pending, otherwise the callback (always `tick`)
runs after being removed from the pending queue. -/
def fire (now : ℚ) (st : GridState) : GridState :=
  match st.pending with
  | [] => st
  | _ :: rest => tick now { st with pending := rest }

/-- External events driving the controller. -/
inductive Event where
  | move (x y now : ℚ)
  | leave
  | frame (now : ℚ)

/-- One step of the event system. -/
def step (e : Event) (st : GridState) : GridState :=
  match e with
  | .move x y now => record st x y now
  | .leave => leave st
  | .frame now => fire now st

/-- Run a sequence of events from the freshly-initialized state. -/
def run (es : List Event) : GridState :=
  es.foldl (fun st e => step e st) initState

/-- The trail is in recency order with timestamps non-increasing from the
head (newest first, oldest last) — the order maintained by recording with a
monotonic clock, and the order `tick`'s tail-scan expiry relies on. -/
def timeOrdered (l : List TrailPoint) : Prop :=
  List.Pairwise (fun a b => b.t ≤ a.t) l

/-- Two samples at least `TRAIL_MIN_DIST` apart (squared-distance form, as
compared by `onMouseMove`). -/
def farApart (a b : TrailPoint) : Prop :=
  TRAIL_MIN_DIST * TRAIL_MIN_DIST ≤
    (a.x - b.x) * (a.x - b.x) + (a.y - b.y) * (a.y - b.y)

/-- Every pair of adjacent trail entries is at least `TRAIL_MIN_DIST` apart. -/
def spaced (l : List TrailPoint) : Prop :=
  List.Chain' farApart l

/-- Scheduler/state invariant: the pending frame callbacks are exactly the
one recorded in `rafId` (so at most one is ever pending), and the trail is
within capacity. -/
def Inv (st : GridState) : Prop :=
  st.pending = st.rafId.toList ∧ st.trail.length ≤ TRAIL_MAX

/-- Outcome of the mount-time effect body, abstracted to its externally
visible actions: whether initialization completed, how many container event
listeners and resize observers were installed, whether a console warning was
emitted, and whether an exception reached the caller. -/
structure MountOutcome where
  initialized : Bool
  listeners : ℕ
  observers : ℕ
  warned : Bool
  raised : Bool
deriving DecidableEq, Repr

/-- The guard structure of the `useEffect` body (lines 149–163, 275–280):
`if (!canvas || !container) return;` then
`gl = canvas.getContext('webgl', …); if (!gl) { console.warn(…); return; }`;
only after both guards does it attach one `ResizeObserver` and the
`mousemove`/`mouseleave` listeners. -/
def mount (hasCanvas hasContainer hasWebGL : Bool) : MountOutcome :=
  if !hasCanvas || !hasContainer then
    { initialized := false, listeners := 0, observers := 0, warned := false, raised := false }
  else if !hasWebGL then
    { initialized := false, listeners := 0, observers := 0, warned := true, raised := false }
  else
    { initialized := true, listeners := 2, observers := 1, warned := false, raised := false }

/-! ### Fragment shader (`FRAG_SRC`, lines 23–77), modelled over `ℝ` -/

/-- Constant `GRID_SIZE = 48.0` (shader line 31). -/
def GRID_SIZE : ℝ := 48

/-- Constant `GRID_GAP = 4.0` (shader line 32). -/
def GRID_GAP : ℝ := 4

/-- Constant `CORNER_RADIUS = 6.0` (shader line 33). -/
def CORNER_RADIUS : ℝ := 6

/-- Constant `BORDER_WIDTH = 4.0` (shader line 34). -/
def BORDER_WIDTH : ℝ := 4

/-- Constant `HOVER_RADIUS = 100.0` (shader line 37). -/
def HOVER_RADIUS : ℝ := 100

/-- Constant `COLOR_BORDER_HOVER = vec4(0.557, 0.196, 0.004, 1.0)` (shader line 40). -/
def COLOR_BORDER_HOVER : ℝ × ℝ × ℝ × ℝ := (0.557, 0.196, 0.004, 1)

/-- GLSL `length` of a 2-vector. -/
noncomputable def lengthR (v : ℝ × ℝ) : ℝ :=
  Real.sqrt (v.1 ^ 2 + v.2 ^ 2)

/-- GLSL `smoothstep(e0, e1, x)`:
`t = clamp((x-e0)/(e1-e0), 0, 1); t*t*(3-2t)`. -/
noncomputable def smoothstepR (e0 e1 x : ℝ) : ℝ :=
  let t := min (max ((x - e0) / (e1 - e0)) 0) 1
  t * t * (3 - 2 * t)

/-- GLSL `mix(a, b, t) = a*(1-t) + b*t`. -/
def mixR (a b t : ℝ) : ℝ := a * (1 - t) + b * t

/-- Componentwise `mix` on vec4. -/
def mix4 (a b : ℝ × ℝ × ℝ × ℝ) (t : ℝ) : ℝ × ℝ × ℝ × ℝ :=
  (mixR a.1 b.1 t, mixR a.2.1 b.2.1 t, mixR a.2.2.1 b.2.2.1 t, mixR a.2.2.2 b.2.2.2 t)

/-- Model of `cellCenter = (floor(fc / GRID_SIZE) + 0.5) * GRID_SIZE` (shader lines 46–47). -/
noncomputable def cellCenter (fc : ℝ × ℝ) : ℝ × ℝ :=
  (((⌊fc.1 / GRID_SIZE⌋ : ℝ) + 1 / 2) * GRID_SIZE,
   ((⌊fc.2 / GRID_SIZE⌋ : ℝ) + 1 / 2) * GRID_SIZE)

/-- Rounded-box SDF of the pixel's cell (shader lines 48–53):
`halfSize = GRID_SIZE*0.5 - GRID_GAP`,
`q = abs(cellLocal) - (halfSize - CORNER_RADIUS)`,
`sdf = length(max(q, 0)) + min(max(q.x, q.y), 0) - CORNER_RADIUS`. -/
noncomputable def cellSDF (fc : ℝ × ℝ) : ℝ :=
  let c := cellCenter fc
  let halfSize := GRID_SIZE * (1 / 2) - GRID_GAP
  let qx := |fc.1 - c.1| - (halfSize - CORNER_RADIUS)
  let qy := |fc.2 - c.2| - (halfSize - CORNER_RADIUS)
  lengthR (max qx 0, max qy 0) + min (max qx qy) 0 - CORNER_RADIUS

/-- Spatial falloff of one trail sample (shader line 66):
`1 - smoothstep(0, HOVER_RADIUS, dist)`. -/
noncomputable def spatialFalloff (d : ℝ) : ℝ :=
  1 - smoothstepR 0 HOVER_RADIUS d

/-- The shader's influence loop (lines 61–68): running maximum of
`trailInfluence * spatial` over the `TRAIL_MAX` uniform slots, skipping
slots with `trailInfluence <= 0` (`continue`).  A slot is `(x, y, influence)`. -/
noncomputable def maxInfluence (c : ℝ × ℝ) (u : Fin TRAIL_MAX → ℝ × ℝ × ℝ) : ℝ :=
  (List.finRange TRAIL_MAX).foldl
    (fun m i =>
      if (u i).2.2 ≤ 0 then m
      else max m ((u i).2.2 *
        spatialFalloff (lengthR (c.1 - (u i).1, c.2 - (u i).2.1)))) 0

/-- The influence maximum as the specification words it: the maximum over
all slots of (slot influence × spatial falloff), with no skip. -/
noncomputable def maxInfluenceSpec (c : ℝ × ℝ) (u : Fin TRAIL_MAX → ℝ × ℝ × ℝ) : ℝ :=
  (List.finRange TRAIL_MAX).foldl
    (fun m i =>
      max m ((u i).2.2 *
        spatialFalloff (lengthR (c.1 - (u i).1, c.2 - (u i).2.1)))) 0

/-- Model of `main` of the fragment shader (lines 42–76): early transparent exit on
positive SDF; otherwise the border ring (`sdf > -BORDER_WIDTH`) blends the
highlight colour by the maximum influence, and the interior is transparent. -/
noncomputable def fragMain (fc : ℝ × ℝ) (u : Fin TRAIL_MAX → ℝ × ℝ × ℝ) : ℝ × ℝ × ℝ × ℝ :=
  let sdf := cellSDF fc
  if 0 < sdf then (0, 0, 0, 0)
  else
    let m := maxInfluence (cellCenter fc) u
    if -BORDER_WIDTH < sdf then mix4 (0, 0, 0, 0) COLOR_BORDER_HOVER m
    else (0, 0, 0, 0)

/-! ### Helper lemmas: uniform-buffer rebuild -/

theorem writeTrail_length (now : ℚ) (l : List TrailPoint) (i : ℕ) (buf : List ℚ) :
    (writeTrail now l i buf).length = buf.length := by
  induction l generalizing i buf with
  | nil => rfl
  | cons p rest ih =>
      rw [writeTrail, ih]
      simp [writePoint, List.length_set]

theorem writeTrail_getElem_low (now : ℚ) (l : List TrailPoint) (i : ℕ) (buf : List ℚ)
    (j : ℕ) (hj : j < i * 3) :
    (writeTrail now l i buf)[j]? = buf[j]? := by
  induction l generalizing i buf with
  | nil => rfl
  | cons p rest ih =>
      rw [writeTrail, ih (i + 1) _ (by omega)]
      unfold writePoint
      rw [List.getElem?_set_ne (by omega), List.getElem?_set_ne (by omega),
        List.getElem?_set_ne (by omega)]

theorem writeTrail_getElem_high (now : ℚ) (l : List TrailPoint) (i : ℕ) (buf : List ℚ)
    (j : ℕ) (hj : (i + l.length) * 3 ≤ j) :
    (writeTrail now l i buf)[j]? = buf[j]? := by
  induction l generalizing i buf with
  | nil => rfl
  | cons p rest ih =>
      rw [List.length_cons] at hj
      rw [writeTrail, ih (i + 1) _ (by omega)]
      unfold writePoint
      rw [List.getElem?_set_ne (by omega), List.getElem?_set_ne (by omega),
        List.getElem?_set_ne (by omega)]

theorem writeTrail_getElem_slot (now : ℚ) (l : List TrailPoint) (i : ℕ) (buf : List ℚ)
    (k : ℕ) (hk : k < l.length) (hb : (i + k) * 3 + 2 < buf.length) :
    (writeTrail now l i buf)[(i + k) * 3]? = some (l.get ⟨k, hk⟩).x ∧
    (writeTrail now l i buf)[(i + k) * 3 + 1]? = some (l.get ⟨k, hk⟩).y ∧
    (writeTrail now l i buf)[(i + k) * 3 + 2]? = some (influence now (l.get ⟨k, hk⟩).t) := by
  induction l generalizing i buf k with
  | nil => exact absurd hk (by simp)
  | cons p rest ih =>
      have hwp : (writePoint now buf i p).length = buf.length := by
        simp [writePoint, List.length_set]
      cases k with
      | zero =>
          rw [writeTrail]
          simp only [Nat.add_zero] at hb ⊢
          refine ⟨?_, ?_, ?_⟩
          · rw [writeTrail_getElem_low now rest (i + 1) _ _ (by omega)]
            unfold writePoint
            rw [List.getElem?_set_ne (by omega), List.getElem?_set_ne (by omega),
              List.getElem?_set_eq_of_lt _ (by omega)]
            rfl
          · rw [writeTrail_getElem_low now rest (i + 1) _ _ (by omega)]
            unfold writePoint
            rw [List.getElem?_set_ne (by omega),
              List.getElem?_set_eq_of_lt _ (by rw [List.length_set]; omega)]
            rfl
          · rw [writeTrail_getElem_low now rest (i + 1) _ _ (by omega)]
            unfold writePoint
            rw [List.getElem?_set_eq_of_lt _ (by rw [List.length_set, List.length_set]; omega)]
            rfl
      | succ k' =>
          rw [writeTrail]
          have hk' : k' < rest.length := by
            rw [List.length_cons] at hk; omega
          have harith : i + (k' + 1) = (i + 1) + k' := by omega
          have hb' : ((i + 1) + k') * 3 + 2 < (writePoint now buf i p).length := by
            rw [hwp]; omega
          have h3 := ih (i + 1) (writePoint now buf i p) k' hk' hb'
          rw [harith]
          exact h3

theorem render_length (now : ℚ) (trail : List TrailPoint) (buf : List ℚ) :
    (render now trail buf).length = buf.length := by
  unfold render
  rw [writeTrail_length, List.length_map]

theorem render_getElem_slot (now : ℚ) (trail : List TrailPoint) (buf : List ℚ)
    (k : ℕ) (hk : k < trail.length) (hb : k * 3 + 2 < buf.length) :
    (render now trail buf)[k * 3]? = some (trail.get ⟨k, hk⟩).x ∧
    (render now trail buf)[k * 3 + 1]? = some (trail.get ⟨k, hk⟩).y ∧
    (render now trail buf)[k * 3 + 2]? = some (influence now (trail.get ⟨k, hk⟩).t) := by
  unfold render
  have h := writeTrail_getElem_slot now trail 0 (buf.map fun _ => 0) k hk
    (by rw [List.length_map]; omega)
  simpa using h

theorem render_getElem_zero (now : ℚ) (trail : List TrailPoint) (buf : List ℚ)
    (j : ℕ) (hj : trail.length * 3 ≤ j) (hb : j < buf.length) :
    (render now trail buf)[j]? = some 0 := by
  unfold render
  rw [writeTrail_getElem_high now trail 0 _ j (by omega), List.getElem?_map,
    List.getElem?_eq_getElem hb]
  rfl

/-! ### Helper lemmas: expiry -/

theorem dropExpired_length_le (c : ℚ) (l : List TrailPoint) :
    (dropExpired c l).length ≤ l.length := by
  induction l with
  | nil => simp [dropExpired]
  | cons p rest ih =>
      rw [dropExpired]
      by_cases h : p.t < c
      · rw [if_pos h]
        exact le_trans ih (by simp)
      · rw [if_neg h]

theorem popExpired_length_le (c : ℚ) (l : List TrailPoint) :
    (popExpired c l).length ≤ l.length := by
  unfold popExpired
  rw [List.length_reverse]
  exact le_trans (dropExpired_length_le c l.reverse) (by rw [List.length_reverse])

theorem dropExpired_mem_ge (c : ℚ) (l : List TrailPoint)
    (hl : List.Pairwise (fun a b : TrailPoint => a.t ≤ b.t) l) :
    ∀ p ∈ dropExpired c l, c ≤ p.t := by
  induction l with
  | nil => simp [dropExpired]
  | cons q rest ih =>
      rw [dropExpired]
      rcases List.pairwise_cons.mp hl with ⟨hq, hrest⟩
      by_cases h : q.t < c
      · rw [if_pos h]
        exact ih hrest
      · rw [if_neg h]
        intro p hp
        rcases List.mem_cons.mp hp with rfl | hp
        · exact not_lt.mp h
        · exact le_trans (not_lt.mp h) (hq p hp)

theorem popExpired_mem_ge (c : ℚ) (l : List TrailPoint) (hl : timeOrdered l) :
    ∀ p ∈ popExpired c l, c ≤ p.t := by
  intro p hp
  unfold popExpired at hp
  rw [List.mem_reverse] at hp
  refine dropExpired_mem_ge c l.reverse ?_ p hp
  rw [List.pairwise_reverse]
  exact hl

/-! ### Helper lemmas: recording and the scheduler invariant -/

theorem record_of_nil (st : GridState) (x y now : ℚ) (h : st.trail = []) :
    record st x y now = startLoop { st with trail := [⟨x, y, now⟩] } := by
  simp only [record, h]
  norm_num [TRAIL_MAX]

theorem record_reject (st : GridState) (x y now : ℚ) (last : TrailPoint)
    (rest : List TrailPoint) (h : st.trail = last :: rest)
    (hd : (x - last.x) * (x - last.x) + (y - last.y) * (y - last.y) <
      TRAIL_MIN_DIST * TRAIL_MIN_DIST) :
    record st x y now = st := by
  simp only [record, h]
  rw [if_pos hd]

theorem record_accept (st : GridState) (x y now : ℚ) (last : TrailPoint)
    (rest : List TrailPoint) (h : st.trail = last :: rest)
    (hd : TRAIL_MIN_DIST * TRAIL_MIN_DIST ≤
      (x - last.x) * (x - last.x) + (y - last.y) * (y - last.y)) :
    record st x y now =
      startLoop { st with trail := (⟨x, y, now⟩ :: last :: rest : List TrailPoint).take TRAIL_MAX } := by
  simp only [record, h]
  rw [if_neg (not_lt.mpr hd)]
  by_cases hlen : TRAIL_MAX < (⟨x, y, now⟩ :: last :: rest : List TrailPoint).length
  · rw [if_pos hlen]
  · rw [if_neg hlen, List.take_of_length_le (not_lt.mp hlen)]

theorem startLoop_trail (st : GridState) : (startLoop st).trail = st.trail := by
  unfold startLoop raf
  split <;> rfl

theorem startLoop_pending (st : GridState) (h : st.pending = st.rafId.toList) :
    (startLoop st).pending = (startLoop st).rafId.toList := by
  unfold startLoop raf
  by_cases hr : st.rafId = none
  · rw [if_pos hr]
    simp [h, hr]
  · rw [if_neg hr]
    exact h

theorem tick_trail (now : ℚ) (st : GridState) :
    (tick now st).trail = popExpired (now - TRAIL_DURATION) st.trail := by
  unfold tick raf
  by_cases h : 0 < (popExpired (now - TRAIL_DURATION) st.trail).length
  · simp only [if_pos h]
  · simp only [if_neg h]

theorem tick_pending_of_empty (now : ℚ) (st : GridState) (hp : st.pending = []) :
    (tick now st).pending = (tick now st).rafId.toList := by
  unfold tick raf
  by_cases h : 0 < (popExpired (now - TRAIL_DURATION) st.trail).length
  · simp only [if_pos h]
    simp [hp]
  · simp only [if_neg h]
    simp [hp]

theorem inv_record (st : GridState) (x y now : ℚ) (h : Inv st) :
    Inv (record st x y now) := by
  obtain ⟨h1, h2⟩ := h
  cases htr : st.trail with
  | nil =>
      rw [record_of_nil st x y now htr]
      refine ⟨startLoop_pending _ (by simpa using h1), ?_⟩
      rw [startLoop_trail]
      simp [TRAIL_MAX]
  | cons last rest =>
      by_cases hd : (x - last.x) * (x - last.x) + (y - last.y) * (y - last.y) <
          TRAIL_MIN_DIST * TRAIL_MIN_DIST
      · rw [record_reject st x y now last rest htr hd]
        exact ⟨h1, h2⟩
      · rw [record_accept st x y now last rest htr (not_lt.mp hd)]
        refine ⟨startLoop_pending _ (by simpa using h1), ?_⟩
        rw [startLoop_trail]
        exact List.length_take_le _ _

theorem inv_tick_of_empty (now : ℚ) (st : GridState) (hp : st.pending = [])
    (h2 : st.trail.length ≤ TRAIL_MAX) : Inv (tick now st) := by
  refine ⟨tick_pending_of_empty now st hp, ?_⟩
  rw [tick_trail]
  exact le_trans (popExpired_length_le _ _) h2

theorem inv_step (e : Event) (st : GridState) (h : Inv st) : Inv (step e st) := by
  cases e with
  | move x y now => exact inv_record st x y now h
  | leave =>
      refine ⟨startLoop_pending _ h.1, ?_⟩
      rw [show (step Event.leave st).trail = (startLoop st).trail from rfl, startLoop_trail]
      exact h.2
  | frame now =>
      show Inv (fire now st)
      unfold fire
      cases hp : st.pending with
      | nil => exact h
      | cons p rest =>
          have h1 := h.1
          rw [hp] at h1
          have hrest : rest = [] := by
            cases hr : st.rafId with
            | none => rw [hr] at h1; simp [Option.toList] at h1
            | some q => rw [hr] at h1; simpa [Option.toList] using (List.cons.injEq _ _ _ _ ▸ h1).2
          exact inv_tick_of_empty now _ (by simp [hrest]) h.2

theorem inv_foldl (es : List Event) (st : GridState) (h : Inv st) :
    Inv (es.foldl (fun s e => step e s) st) := by
  induction es generalizing st with
  | nil => exact h
  | cons e rest ih => exact ih _ (inv_step e st h)

theorem inv_init : Inv initState := by
  constructor
  · rfl
  · simp [initState, TRAIL_MAX]

theorem inv_run (es : List Event) : Inv (run es) :=
  inv_foldl es initState inv_init

theorem spaced_record (st : GridState) (x y now : ℚ) (h : spaced st.trail) :
    spaced (record st x y now).trail := by
  cases htr : st.trail with
  | nil =>
      rw [record_of_nil st x y now htr, startLoop_trail]
      simp [spaced]
  | cons last rest =>
      by_cases hd : (x - last.x) * (x - last.x) + (y - last.y) * (y - last.y) <
          TRAIL_MIN_DIST * TRAIL_MIN_DIST
      · rw [record_reject st x y now last rest htr hd]
        exact h
      · rw [record_accept st x y now last rest htr (not_lt.mp hd), startLoop_trail]
        refine List.Chain'.take ?_ _
        rw [htr] at h
        exact List.chain'_cons.mpr ⟨not_lt.mp hd, h⟩

/-! ### Helper lemmas: fragment shader -/

theorem smoothstepR_nonneg (e0 e1 x : ℝ) : 0 ≤ smoothstepR e0 e1 x := by
  unfold smoothstepR
  set t := min (max ((x - e0) / (e1 - e0)) 0) 1 with ht
  have h0 : 0 ≤ t := le_min (le_max_right _ 0) zero_le_one
  have h1 : t ≤ 1 := min_le_right _ 1
  have : (0:ℝ) < 3 - 2 * t := by linarith
  positivity

theorem smoothstepR_le_one (e0 e1 x : ℝ) : smoothstepR e0 e1 x ≤ 1 := by
  have h : smoothstepR e0 e1 x =
      min (max ((x - e0) / (e1 - e0)) 0) 1 * min (max ((x - e0) / (e1 - e0)) 0) 1 *
        (3 - 2 * min (max ((x - e0) / (e1 - e0)) 0) 1) := rfl
  rw [h]
  set t := min (max ((x - e0) / (e1 - e0)) 0) 1 with ht
  have h0 : 0 ≤ t := le_min (le_max_right _ 0) zero_le_one
  have h1 : t ≤ 1 := min_le_right _ 1
  nlinarith [mul_nonneg (sq_nonneg (1 - t)) (by linarith : (0:ℝ) ≤ 2 * t + 1)]

theorem spatialFalloff_nonneg (d : ℝ) : 0 ≤ spatialFalloff d := by
  unfold spatialFalloff
  linarith [smoothstepR_le_one 0 HOVER_RADIUS d]

theorem spatialFalloff_zero : spatialFalloff 0 = 1 := by
  unfold spatialFalloff smoothstepR HOVER_RADIUS
  norm_num

theorem spatialFalloff_far (d : ℝ) (hd : HOVER_RADIUS ≤ d) : spatialFalloff d = 0 := by
  unfold spatialFalloff smoothstepR
  rw [HOVER_RADIUS] at hd
  have h1 : (1:ℝ) ≤ (d - 0) / (HOVER_RADIUS - 0) := by
    rw [HOVER_RADIUS]
    rw [sub_zero, sub_zero]
    rw [le_div_iff₀ (by norm_num : (0:ℝ) < 100)]
    linarith
  have h2 : max ((d - 0) / (HOVER_RADIUS - 0)) 0 = (d - 0) / (HOVER_RADIUS - 0) :=
    max_eq_left (le_trans zero_le_one h1)
  rw [h2, min_eq_right h1]
  ring

theorem maxInfluence_eq_spec (c : ℝ × ℝ) (u : Fin TRAIL_MAX → ℝ × ℝ × ℝ) :
    maxInfluence c u = maxInfluenceSpec c u := by
  unfold maxInfluence maxInfluenceSpec
  have key : ∀ (l : List (Fin TRAIL_MAX)) (m : ℝ), 0 ≤ m →
      l.foldl (fun m i =>
        if (u i).2.2 ≤ 0 then m
        else max m ((u i).2.2 *
          spatialFalloff (lengthR (c.1 - (u i).1, c.2 - (u i).2.1)))) m =
      l.foldl (fun m i =>
        max m ((u i).2.2 *
          spatialFalloff (lengthR (c.1 - (u i).1, c.2 - (u i).2.1)))) m := by
    intro l
    induction l with
    | nil => intro m _; rfl
    | cons i rest ih =>
        intro m hm
        rw [List.foldl_cons, List.foldl_cons]
        by_cases hz : (u i).2.2 ≤ 0
        · rw [if_pos hz]
          have hprod : (u i).2.2 *
              spatialFalloff (lengthR (c.1 - (u i).1, c.2 - (u i).2.1)) ≤ 0 :=
            mul_nonpos_of_nonpos_of_nonneg hz (spatialFalloff_nonneg _)
          rw [max_eq_left (le_trans hprod hm)]
          exact ih m hm
        · rw [if_neg hz]
          exact ih _ (le_trans hm (le_max_left _ _))
  exact key _ 0 le_rfl

theorem cellCenter_p47 : cellCenter ((47 : ℝ), (24 : ℝ)) = (24, 24) := by
  unfold cellCenter GRID_SIZE
  norm_num [Int.floor_eq_zero_iff, Set.mem_Ico]

theorem cellSDF_p47 : cellSDF ((47 : ℝ), (24 : ℝ)) = 3 := by
  unfold cellSDF
  rw [cellCenter_p47]
  unfold lengthR GRID_SIZE GRID_GAP CORNER_RADIUS
  norm_num
  rw [show ((81:ℝ) = 9 ^ 2) by norm_num, Real.sqrt_sq (by norm_num : (0:ℝ) ≤ 9)]
  norm_num

theorem cellSDF_p24 : cellSDF ((24 : ℝ), (24 : ℝ)) = -20 := by
  unfold cellSDF
  have hc : cellCenter ((24 : ℝ), (24 : ℝ)) = (24, 24) := by
    unfold cellCenter GRID_SIZE
    norm_num [Int.floor_eq_zero_iff, Set.mem_Ico]
  rw [hc]
  unfold lengthR GRID_SIZE GRID_GAP CORNER_RADIUS
  norm_num

theorem cellSDF_p43 : cellSDF ((43 : ℝ), (24 : ℝ)) = -1 := by
  unfold cellSDF
  have hc : cellCenter ((43 : ℝ), (24 : ℝ)) = (24, 24) := by
    unfold cellCenter GRID_SIZE
    norm_num [Int.floor_eq_zero_iff, Set.mem_Ico]
  rw [hc]
  unfold lengthR GRID_SIZE GRID_GAP CORNER_RADIUS
  norm_num
  rw [show ((25:ℝ) = 5 ^ 2) by norm_num, Real.sqrt_sq (by norm_num : (0:ℝ) ≤ 5)]
  norm_num

theorem tick_cases (now : ℚ) (st : GridState) :
    (popExpired (now - TRAIL_DURATION) st.trail = [] →
      (tick now st).rafId = none ∧ (tick now st).pending = st.pending ∧
      (tick now st).nextId = st.nextId) ∧
    (popExpired (now - TRAIL_DURATION) st.trail ≠ [] →
      (tick now st).rafId = some st.nextId ∧
      (tick now st).pending = st.pending ++ [st.nextId] ∧
      (tick now st).nextId = st.nextId + 1) := by
  constructor
  · intro h
    unfold tick raf
    simp [h]
  · intro h
    have hl : 0 < (popExpired (now - TRAIL_DURATION) st.trail).length :=
      List.length_pos.mpr h
    unfold tick raf
    simp [if_pos hl]

/-! ### Claim theorems -/

/-- C1 (counterexample): the claim says a point of age exactly
`TRAIL_DURATION` (recorded at t=0, tick at now=500) is removed and the trail
becomes empty with no frame scheduled; the code's expiry test is strict
(`t < now - TRAIL_DURATION`), so the point survives that tick and another
frame is scheduled. -/
theorem C1_counterexample :
    (run [Event.move 0 0 0, Event.frame 500]).trail = [⟨0, 0, 0⟩] ∧
    (run [Event.move 0 0 0, Event.frame 500]).rafId = some 1 := by
  norm_num [run, step, record, leave, fire, tick, raf, startLoop, popExpired,
    dropExpired, initState, TRAIL_MAX, TRAIL_DURATION, TRAIL_MIN_DIST,
    Option.some_ne_none]

/-- C1 (amended): for a time-ordered trail, after `tick(now)` every point
whose age is strictly greater than `TRAIL_DURATION` is absent (survivors
have age ≤ 500 ms); a single point recorded at t=0 is removed by a tick at
now=501, leaving the trail empty with no further frame scheduled. -/
theorem C1_tick_expiry (st : GridState) (now : ℚ) (h : timeOrdered st.trail) :
    (∀ p ∈ (tick now st).trail, now - p.t ≤ TRAIL_DURATION) ∧
    (st.trail = [⟨0, 0, 0⟩] → now = 501 →
      (tick now st).trail = [] ∧ (tick now st).rafId = none) := by
  constructor
  · intro p hp
    rw [tick_trail] at hp
    have := popExpired_mem_ge (now - TRAIL_DURATION) st.trail h p hp
    linarith
  · intro h1 h2
    subst h2
    have hpop : popExpired (501 - TRAIL_DURATION) st.trail = [] := by
      rw [h1]
      norm_num [popExpired, dropExpired, TRAIL_DURATION]
    exact ⟨by rw [tick_trail, hpop], ((tick_cases 501 st).1 hpop).1⟩

/-- C1 witness: the amended theorem applied to the concrete single-point
trail recorded at t=0, ticked at now=501. -/
theorem C1_tick_expiry_witness :
    (tick 501 { initState with trail := [⟨0, 0, 0⟩] }).trail = [] ∧
    (tick 501 { initState with trail := [⟨0, 0, 0⟩] }).rafId = none := by
  have h := C1_tick_expiry { initState with trail := [⟨0, 0, 0⟩] } 501
    (by simp [timeOrdered])
  exact h.2 rfl rfl

/-- C2 (confirmed): a pointer move appends a point at the front iff the
trail is empty or the new position is at least `TRAIL_MIN_DIST` from the
most recent point (squared-Euclidean compare); otherwise the state is
unchanged; and recording preserves the adjacent-spacing invariant, so any
two consecutively recorded points are ≥ `TRAIL_MIN_DIST` apart. -/
theorem C2_record_min_dist (st : GridState) (x y now : ℚ) :
    (st.trail = [] → (record st x y now).trail = [⟨x, y, now⟩]) ∧
    (∀ last rest, st.trail = last :: rest →
      (TRAIL_MIN_DIST * TRAIL_MIN_DIST ≤
          (x - last.x) * (x - last.x) + (y - last.y) * (y - last.y) →
        (record st x y now).trail =
          (⟨x, y, now⟩ :: last :: rest : List TrailPoint).take TRAIL_MAX) ∧
      ((x - last.x) * (x - last.x) + (y - last.y) * (y - last.y) <
          TRAIL_MIN_DIST * TRAIL_MIN_DIST →
        record st x y now = st)) ∧
    (spaced st.trail → spaced (record st x y now).trail) := by
  refine ⟨?_, ?_, spaced_record st x y now⟩
  · intro h
    rw [record_of_nil st x y now h, startLoop_trail]
  · intro last rest h
    exact ⟨fun hd => by rw [record_accept st x y now last rest h hd, startLoop_trail],
      fun hd => record_reject st x y now last rest h hd⟩

/-- C2 witness: after recording (0,0,t=0), the point (3,0,t=10) is rejected
(distance 3 < 8, state unchanged) while (10,0,t=10) is accepted (distance
10 ≥ 8), and recording into an empty trail always appends. -/
theorem C2_record_min_dist_witness :
    record { initState with trail := [⟨0, 0, 0⟩] } 3 0 10 =
      { initState with trail := [⟨0, 0, 0⟩] } ∧
    (record { initState with trail := [⟨0, 0, 0⟩] } 10 0 10).trail =
      [⟨10, 0, 10⟩, ⟨0, 0, 0⟩] ∧
    (record initState 0 0 0).trail = [⟨0, 0, 0⟩] := by
  refine ⟨?_, ?_, (C2_record_min_dist initState 0 0 0).1 rfl⟩
  · exact (((C2_record_min_dist { initState with trail := [⟨0, 0, 0⟩] } 3 0 10).2.1
      ⟨0, 0, 0⟩ [] rfl).2 (by norm_num [TRAIL_MIN_DIST]))
  · have h := ((C2_record_min_dist { initState with trail := [⟨0, 0, 0⟩] } 10 0 10).2.1
      ⟨0, 0, 0⟩ [] rfl).1 (by norm_num [TRAIL_MIN_DIST])
    rw [h]
    rfl

/-- C3 (confirmed): the influence written into a trail point's uniform slot
is `max(0, 1 - (now - t)/TRAIL_DURATION)`; influence is monotonically
non-increasing in age, and is exactly 0 whenever the age reaches
`TRAIL_DURATION`. -/
theorem C3_influence_decay (buf : List ℚ) (trail : List TrailPoint) (now : ℚ) (i : ℕ)
    (hbuf : buf.length = TRAIL_MAX * 3) (hi : i < trail.length)
    (hcap : trail.length ≤ TRAIL_MAX) :
    (render now trail buf)[i * 3 + 2]? =
      some (max 0 (1 - (now - (trail.get ⟨i, hi⟩).t) / TRAIL_DURATION)) ∧
    (∀ t now1 now2 : ℚ, now1 ≤ now2 → influence now2 t ≤ influence now1 t) ∧
    (∀ t n : ℚ, TRAIL_DURATION ≤ n - t → influence n t = 0) := by
  refine ⟨?_, ?_, ?_⟩
  · have hb : i * 3 + 2 < buf.length := by
      have : i < TRAIL_MAX := lt_of_lt_of_le hi hcap
      rw [hbuf]
      simp only [TRAIL_MAX] at this ⊢
      omega
    exact (render_getElem_slot now trail buf i hi hb).2.2
  · intro t n1 n2 h
    unfold influence TRAIL_DURATION
    exact max_le_max le_rfl (by linarith)
  · intro t n h
    unfold influence TRAIL_DURATION
    rw [TRAIL_DURATION] at h
    exact max_eq_left (by linarith)

/-- C3 witness: a point recorded at t=100 rendered at now=350 lands in slot
2 with influence max(0, 1 − 250/500). -/
theorem C3_influence_decay_witness :
    (render 350 [⟨1, 2, 100⟩] (List.replicate (TRAIL_MAX * 3) 7))[0 * 3 + 2]? =
      some (max 0 (1 - (350 - (([⟨1, 2, 100⟩] :
        List TrailPoint).get ⟨0, by norm_num⟩).t) / TRAIL_DURATION)) ∧
    (∀ t now1 now2 : ℚ, now1 ≤ now2 → influence now2 t ≤ influence now1 t) ∧
    (∀ t n : ℚ, TRAIL_DURATION ≤ n - t → influence n t = 0) :=
  C3_influence_decay (List.replicate (TRAIL_MAX * 3) 7) [⟨1, 2, 100⟩] 350 0
    (by simp) (by norm_num) (by norm_num [TRAIL_MAX])

/-- C4 (confirmed): no event sequence ever takes the trail above `TRAIL_MAX`
entries; recording into a full trail keeps the length at `TRAIL_MAX`, and an
accepted insertion keeps the new head while truncating the tail to
`TRAIL_MAX − 1` retained entries. -/
theorem C4_capacity :
    (∀ es, (run es).trail.length ≤ TRAIL_MAX) ∧
    (∀ (st : GridState) (x y now : ℚ), st.trail.length = TRAIL_MAX →
      (record st x y now).trail.length = TRAIL_MAX) ∧
    (∀ (st : GridState) (x y now : ℚ) last rest, st.trail = last :: rest →
      TRAIL_MIN_DIST * TRAIL_MIN_DIST ≤
        (x - last.x) * (x - last.x) + (y - last.y) * (y - last.y) →
      (record st x y now).trail =
        ⟨x, y, now⟩ :: (last :: rest : List TrailPoint).take (TRAIL_MAX - 1)) := by
  refine ⟨fun es => (inv_run es).2, ?_, ?_⟩
  · intro st x y now hlen
    cases htr : st.trail with
    | nil => rw [htr] at hlen; simp [TRAIL_MAX] at hlen
    | cons last rest =>
        by_cases hd : (x - last.x) * (x - last.x) + (y - last.y) * (y - last.y) <
            TRAIL_MIN_DIST * TRAIL_MIN_DIST
        · rw [record_reject st x y now last rest htr hd]
          exact hlen
        · rw [record_accept st x y now last rest htr (not_lt.mp hd), startLoop_trail,
            List.length_take]
          rw [htr] at hlen
          rw [List.length_cons, hlen]
          simp only [TRAIL_MAX]
          omega
  · intro st x y now last rest htr hd
    rw [record_accept st x y now last rest htr hd, startLoop_trail,
      show TRAIL_MAX = (TRAIL_MAX - 1) + 1 from rfl, List.take_succ_cons]
    rfl

/-- C4 witness: a full 50-point trail stays at 50 after an accepted record,
with the oldest entry dropped from the tail. -/
theorem C4_capacity_witness :
    (run [Event.move 0 0 0]).trail.length ≤ TRAIL_MAX ∧
    (record { initState with trail := List.replicate TRAIL_MAX ⟨0, 0, 0⟩ }
      100 0 1).trail.length = TRAIL_MAX ∧
    (record { initState with trail := List.replicate TRAIL_MAX ⟨0, 0, 0⟩ }
      100 0 1).trail =
      ⟨100, 0, 1⟩ :: (⟨0, 0, 0⟩ :: List.replicate (TRAIL_MAX - 1) ⟨0, 0, 0⟩ :
        List TrailPoint).take (TRAIL_MAX - 1) := by
  have hrep : ({ initState with
      trail := List.replicate TRAIL_MAX ⟨0, 0, 0⟩ } : GridState).trail =
      (⟨0, 0, 0⟩ : TrailPoint) :: List.replicate (TRAIL_MAX - 1) ⟨0, 0, 0⟩ := by
    show List.replicate TRAIL_MAX (⟨0, 0, 0⟩ : TrailPoint) = _
    rw [show TRAIL_MAX = (TRAIL_MAX - 1) + 1 from rfl, List.replicate_succ]
    rfl
  refine ⟨C4_capacity.1 _, ?_, ?_⟩
  · exact C4_capacity.2.1 _ 100 0 1 (by simp [List.length_replicate])
  · exact C4_capacity.2.2 _ 100 0 1 ⟨0, 0, 0⟩ _ hrep (by norm_num [TRAIL_MIN_DIST])

/-- C5 (confirmed): a rebuild of the uniform buffer preserves its
`TRAIL_MAX × 3` length, fills slots `0 .. trail.length − 1` with
`(x, y, influence)` in recency order, and writes exactly `(0, 0, 0)` to
every slot at index ≥ trail.length, whatever the previous buffer held. -/
theorem C5_buffer_rebuild (buf : List ℚ) (trail : List TrailPoint) (now : ℚ)
    (hbuf : buf.length = TRAIL_MAX * 3) (hcap : trail.length ≤ TRAIL_MAX) :
    (render now trail buf).length = TRAIL_MAX * 3 ∧
    (∀ i, ∀ hi : i < trail.length,
      (render now trail buf)[i * 3]? = some (trail.get ⟨i, hi⟩).x ∧
      (render now trail buf)[i * 3 + 1]? = some (trail.get ⟨i, hi⟩).y ∧
      (render now trail buf)[i * 3 + 2]? = some (influence now (trail.get ⟨i, hi⟩).t)) ∧
    (∀ i, trail.length ≤ i → i < TRAIL_MAX →
      (render now trail buf)[i * 3]? = some 0 ∧
      (render now trail buf)[i * 3 + 1]? = some 0 ∧
      (render now trail buf)[i * 3 + 2]? = some 0) := by
  refine ⟨by rw [render_length, hbuf], ?_, ?_⟩
  · intro i hi
    apply render_getElem_slot now trail buf i hi
    have : i < TRAIL_MAX := lt_of_lt_of_le hi hcap
    rw [hbuf]
    simp only [TRAIL_MAX] at this ⊢
    omega
  · intro i h1 h2
    simp only [TRAIL_MAX] at h2
    have hb : ∀ r : ℕ, r ≤ 2 → i * 3 + r < buf.length := by
      intro r hr
      rw [hbuf]
      simp only [TRAIL_MAX]
      omega
    exact ⟨render_getElem_zero now trail buf _ (by omega) (by simpa using hb 0 (by omega)),
      render_getElem_zero now trail buf _ (by omega) (hb 1 (by omega)),
      render_getElem_zero now trail buf _ (by omega) (hb 2 (by omega))⟩

/-- C5 witness: rebuilding over a dirty previous buffer (all slots 7) with a
single-point trail yields the point in slot 0 and exact zeros beyond it. -/
theorem C5_buffer_rebuild_witness :
    (render 3 [⟨1, 2, 3⟩] (List.replicate (TRAIL_MAX * 3) 7)).length = TRAIL_MAX * 3 ∧
    (∀ i, ∀ hi : i < ([⟨1, 2, 3⟩] : List TrailPoint).length,
      (render 3 [⟨1, 2, 3⟩] (List.replicate (TRAIL_MAX * 3) 7))[i * 3]? =
        some (([⟨1, 2, 3⟩] : List TrailPoint).get ⟨i, hi⟩).x ∧
      (render 3 [⟨1, 2, 3⟩] (List.replicate (TRAIL_MAX * 3) 7))[i * 3 + 1]? =
        some (([⟨1, 2, 3⟩] : List TrailPoint).get ⟨i, hi⟩).y ∧
      (render 3 [⟨1, 2, 3⟩] (List.replicate (TRAIL_MAX * 3) 7))[i * 3 + 2]? =
        some (influence 3 (([⟨1, 2, 3⟩] : List TrailPoint).get ⟨i, hi⟩).t)) ∧
    (∀ i, ([⟨1, 2, 3⟩] : List TrailPoint).length ≤ i → i < TRAIL_MAX →
      (render 3 [⟨1, 2, 3⟩] (List.replicate (TRAIL_MAX * 3) 7))[i * 3]? = some 0 ∧
      (render 3 [⟨1, 2, 3⟩] (List.replicate (TRAIL_MAX * 3) 7))[i * 3 + 1]? = some 0 ∧
      (render 3 [⟨1, 2, 3⟩] (List.replicate (TRAIL_MAX * 3) 7))[i * 3 + 2]? = some 0) :=
  C5_buffer_rebuild (List.replicate (TRAIL_MAX * 3) 7) [⟨1, 2, 3⟩] 3
    (by simp) (by norm_num [TRAIL_MAX])

/-- C6 (counterexample): the claim says that after a tick leaves the trail
empty no frame is scheduled until a new point is recorded; but a
pointer-leave event (which records nothing — the trail stays empty) invokes
`startLoop` and schedules a frame. -/
theorem C6_counterexample :
    (run [Event.move 0 0 0, Event.frame 501]).trail = [] ∧
    (run [Event.move 0 0 0, Event.frame 501]).rafId = none ∧
    (run [Event.move 0 0 0, Event.frame 501, Event.leave]).trail = [] ∧
    (run [Event.move 0 0 0, Event.frame 501, Event.leave]).rafId = some 1 := by
  norm_num [run, step, record, leave, fire, tick, raf, startLoop, popExpired,
    dropExpired, initState, TRAIL_MAX, TRAIL_DURATION, TRAIL_MIN_DIST,
    Option.some_ne_none]

/-- C6 (amended): a tick that leaves the trail empty sets the handle to null
and schedules nothing, and otherwise schedules exactly one successor tick;
from a null-handle, nothing-pending state no frame fires on its own, and
only a pointer event — a move (which records a point) or a leave (which
schedules without recording) — can schedule the next frame. -/
theorem C6_tick_sched (st : GridState) (now : ℚ) :
    ((tick now st).trail = [] →
      (tick now st).rafId = none ∧ (tick now st).pending = st.pending) ∧
    ((tick now st).trail ≠ [] →
      (tick now st).rafId = some st.nextId ∧
      (tick now st).pending = st.pending ++ [st.nextId]) ∧
    (∀ st' : GridState, st'.rafId = none → st'.pending = [] →
      (∀ m, step (Event.frame m) st' = st') ∧
      (∀ e, (step e st').rafId ≠ none →
        (∃ a b n, e = Event.move a b n) ∨ e = Event.leave)) := by
  refine ⟨?_, ?_, ?_⟩
  · intro h
    rw [tick_trail] at h
    exact ⟨((tick_cases now st).1 h).1, ((tick_cases now st).1 h).2.1⟩
  · intro h
    rw [tick_trail] at h
    exact ⟨((tick_cases now st).2 h).1, ((tick_cases now st).2 h).2.1⟩
  · intro st' hr hp
    constructor
    · intro m
      show fire m st' = st'
      unfold fire
      rw [hp]
    · intro e he
      cases e with
      | move a b n => exact Or.inl ⟨a, b, n, rfl⟩
      | leave => exact Or.inr rfl
      | frame m =>
          exfalso
          apply he
          show (fire m st').rafId = none
          unfold fire
          rw [hp]
          exact hr

/-- C6 witness: the amended theorem at a tick that empties the trail
(rafId becomes null, nothing scheduled), at a tick that keeps a point
(exactly one successor scheduled), and at the idle state (a frame event is
a no-op). -/
theorem C6_tick_sched_witness :
    (tick 501 { initState with trail := [⟨0, 0, 0⟩] }).rafId = none ∧
    (tick 601 { initState with trail := [⟨0, 0, 600⟩] }).rafId = some 0 ∧
    (tick 601 { initState with trail := [⟨0, 0, 600⟩] }).pending = [0] ∧
    step (Event.frame 77) initState = initState := by
  have hE : (tick 501 { initState with trail := [⟨0, 0, 0⟩] }).trail = [] := by
    rw [tick_trail]
    norm_num [popExpired, dropExpired, TRAIL_DURATION, initState]
  have hN : (tick 601 { initState with trail := [⟨0, 0, 600⟩] }).trail ≠ [] := by
    rw [tick_trail]
    norm_num [popExpired, dropExpired, TRAIL_DURATION, initState]
  refine ⟨((C6_tick_sched { initState with trail := [⟨0, 0, 0⟩] } 501).1 hE).1, ?_, ?_, ?_⟩
  · exact ((C6_tick_sched { initState with trail := [⟨0, 0, 600⟩] } 601).2.1 hN).1
  · exact ((C6_tick_sched { initState with trail := [⟨0, 0, 600⟩] } 601).2.1 hN).2
  · exact ((C6_tick_sched initState 0).2.2 initState rfl rfl).1 77

/-- Zeta-reduced equation for `fragMain`. -/
theorem fragMain_eq (fc : ℝ × ℝ) (u : Fin TRAIL_MAX → ℝ × ℝ × ℝ) :
    fragMain fc u =
      if 0 < cellSDF fc then (0, 0, 0, 0)
      else if -BORDER_WIDTH < cellSDF fc then
        mix4 (0, 0, 0, 0) COLOR_BORDER_HOVER (maxInfluence (cellCenter fc) u)
      else (0, 0, 0, 0) := rfl

/-- C7 (confirmed): the fragment function is fully transparent outside the
cell (positive SDF) and in the interior deeper than `BORDER_WIDTH`; within
the border ring it outputs the highlight colour scaled by the maximum — not
a sum — over slots of (slot influence × spatial falloff), where the falloff
is 1 at distance 0 and 0 from `HOVER_RADIUS` outward. -/
theorem C7_fragment (fc : ℝ × ℝ) (u : Fin TRAIL_MAX → ℝ × ℝ × ℝ) :
    (0 < cellSDF fc → fragMain fc u = (0, 0, 0, 0)) ∧
    (cellSDF fc ≤ -BORDER_WIDTH → fragMain fc u = (0, 0, 0, 0)) ∧
    (-BORDER_WIDTH < cellSDF fc → cellSDF fc ≤ 0 →
      fragMain fc u =
        (0.557 * maxInfluenceSpec (cellCenter fc) u,
         0.196 * maxInfluenceSpec (cellCenter fc) u,
         0.004 * maxInfluenceSpec (cellCenter fc) u,
         maxInfluenceSpec (cellCenter fc) u)) ∧
    spatialFalloff 0 = 1 ∧
    (∀ d, HOVER_RADIUS ≤ d → spatialFalloff d = 0) := by
  refine ⟨?_, ?_, ?_, spatialFalloff_zero, fun d hd => spatialFalloff_far d hd⟩
  · intro h
    rw [fragMain_eq, if_pos h]
  · intro h
    have h0 : ¬ 0 < cellSDF fc := by
      rw [BORDER_WIDTH] at h
      push_neg
      linarith
    have h4 : ¬ -BORDER_WIDTH < cellSDF fc := not_lt.mpr h
    rw [fragMain_eq, if_neg h0, if_neg h4]
  · intro h1 h2
    rw [fragMain_eq, if_neg (not_lt.mpr h2), if_pos h1, maxInfluence_eq_spec]
    unfold mix4 mixR COLOR_BORDER_HOVER
    simp only [Prod.mk.injEq]
    refine ⟨by ring, by ring, by ring, by ring⟩

/-- C7 witness: at pixel (47,24) the SDF is 3 (gap between cells —
transparent); at (24,24) it is −20 (cell interior — transparent); at
(43,24) it is −1 (border ring — highlight colour scaled by the maximum
influence). -/
theorem C7_fragment_witness :
    fragMain ((47 : ℝ), (24 : ℝ)) (fun _ => ((0 : ℝ), (0 : ℝ), (0 : ℝ))) = (0, 0, 0, 0) ∧
    fragMain ((24 : ℝ), (24 : ℝ)) (fun _ => ((0 : ℝ), (0 : ℝ), (0 : ℝ))) = (0, 0, 0, 0) ∧
    fragMain ((43 : ℝ), (24 : ℝ)) (fun _ => ((0 : ℝ), (0 : ℝ), (0 : ℝ))) =
      (0.557 * maxInfluenceSpec (cellCenter ((43 : ℝ), (24 : ℝ)))
        (fun _ => ((0 : ℝ), (0 : ℝ), (0 : ℝ))),
       0.196 * maxInfluenceSpec (cellCenter ((43 : ℝ), (24 : ℝ)))
        (fun _ => ((0 : ℝ), (0 : ℝ), (0 : ℝ))),
       0.004 * maxInfluenceSpec (cellCenter ((43 : ℝ), (24 : ℝ)))
        (fun _ => ((0 : ℝ), (0 : ℝ), (0 : ℝ))),
       maxInfluenceSpec (cellCenter ((43 : ℝ), (24 : ℝ)))
        (fun _ => ((0 : ℝ), (0 : ℝ), (0 : ℝ)))) := by
  refine ⟨?_, ?_, ?_⟩
  · exact (C7_fragment _ _).1 (by rw [cellSDF_p47]; norm_num)
  · exact (C7_fragment _ _).2.1 (by rw [cellSDF_p24, BORDER_WIDTH]; norm_num)
  · exact (C7_fragment _ _).2.2.1 (by rw [cellSDF_p43, BORDER_WIDTH]; norm_num)
      (by rw [cellSDF_p43]; norm_num)

/-- C8 (confirmed): pointer-leave never touches the trail; when a frame is
already scheduled it changes nothing at all, and when none is scheduled it
only schedules one (trail, buffer and everything else unchanged). -/
theorem C8_leave_keeps_trail (st : GridState) :
    (step Event.leave st).trail = st.trail ∧
    (st.rafId ≠ none → step Event.leave st = st) ∧
    (st.rafId = none →
      step Event.leave st =
        { st with
          rafId := some st.nextId
          nextId := st.nextId + 1
          pending := st.pending ++ [st.nextId] }) := by
  refine ⟨startLoop_trail st, ?_, ?_⟩
  · intro h
    show startLoop st = st
    unfold startLoop
    rw [if_neg h]
  · intro h
    show startLoop st = _
    unfold startLoop raf
    rw [if_pos h]

/-- C8 witness: pointer-leave on a state with a scheduled frame is the
identity; on the idle initial state it only schedules one frame. -/
theorem C8_leave_keeps_trail_witness :
    step Event.leave { initState with rafId := some 3, pending := [3] } =
      { initState with rafId := some 3, pending := [3] } ∧
    step Event.leave initState =
      { initState with rafId := some 0, nextId := 1, pending := [0] } := by
  constructor
  · exact (C8_leave_keeps_trail _).2.1 (by simp)
  · rw [(C8_leave_keeps_trail initState).2.2 rfl]
    rfl

/-- C9 (confirmed): if the canvas or container reference is missing, or the
WebGL context cannot be acquired, mount installs no listeners and no
observer, raises nothing to the caller, and warns only in the
unsupported-context case. -/
theorem C9_mount_guard (c k g : Bool) (h : c = false ∨ k = false ∨ g = false) :
    (mount c k g).initialized = false ∧
    (mount c k g).listeners = 0 ∧
    (mount c k g).observers = 0 ∧
    (mount c k g).raised = false ∧
    ((mount c k g).warned = true → c = true ∧ k = true ∧ g = false) := by
  cases c <;> cases k <;> cases g <;> simp_all [mount]

/-- C9 witness: refs present but WebGL unavailable — warning only, nothing
installed, nothing raised. -/
theorem C9_mount_guard_witness :
    (mount true true false).initialized = false ∧
    (mount true true false).listeners = 0 ∧
    (mount true true false).observers = 0 ∧
    (mount true true false).raised = false ∧
    ((mount true true false).warned = true →
      true = true ∧ true = true ∧ false = false) :=
  C9_mount_guard true true false (Or.inr (Or.inr rfl))

/-- C10 (confirmed): at most one frame callback is ever pending — reachable
states keep the pending queue at length ≤ 1; `startLoop` is a no-op when a
handle is already stored; and one tick schedules at most one successor. -/
theorem C10_single_callback :
    (∀ es, (run es).pending.length ≤ 1) ∧
    (∀ (st : GridState) (h : ℕ), st.rafId = some h → startLoop st = st) ∧
    (∀ (now : ℚ) (st : GridState),
      (tick now st).pending.length ≤ st.pending.length + 1) := by
  refine ⟨?_, ?_, ?_⟩
  · intro es
    rw [(inv_run es).1]
    cases (run es).rafId <;> simp [Option.toList]
  · intro st h hr
    unfold startLoop
    rw [if_neg (by rw [hr]; simp)]
  · intro now st
    by_cases h : popExpired (now - TRAIL_DURATION) st.trail = []
    · rw [((tick_cases now st).1 h).2.1]
      omega
    · rw [((tick_cases now st).2 h).2.1]
      simp

/-- C10 witness: two pointer-leaves stack no callbacks; `startLoop` with a
stored handle is the identity; a tick adds at most one pending callback. -/
theorem C10_single_callback_witness :
    (run [Event.leave, Event.leave]).pending.length ≤ 1 ∧
    startLoop { initState with rafId := some 5 } = { initState with rafId := some 5 } ∧
    (tick 0 initState).pending.length ≤ initState.pending.length + 1 :=
  ⟨C10_single_callback.1 _, C10_single_callback.2.1 _ 5 rfl,
    C10_single_callback.2.2 0 initState⟩

end WebGLGrid
